import Mathlib

/-!
Shallow embedding of the gluey DSL evaluation engine (packages `eval`,
`expr`, `dsl` and `runtime`) used to check the specification's claims
about the four-phase expression-evaluation pipeline, its error
semantics, and the form validators.

Go-specific conventions used throughout the embedding:
* nillable values (`error`, interface fields, maps, function pointers)
  become `Option`;
* Go structs become Lean structures with the same field names where
  Lean's grammar allows it;
* Go strings become Lean `String`; `strings.Join` is modelled by
  `goJoin` with the same semantics.
-/

namespace Gluey

/-! ### Error model — eval context (evalContext, recordError, multiError) -/

/-- A Go `error` value as the eval package produces them: either a plain
message (`errors.New` / `fmt.Errorf` / `expr.ValidationError`) or the
`multiError` aggregate holding a slice of errors. -/
inductive GoErr where
  | mk (msg : String)
  | multi (errs : List GoErr)
deriving Repr

/-- Embeds `strings.Join(msgs, sep)`. -/
def goJoin (sep : String) : List String → String
  | [] => ""
  | [s] => s
  | s :: ss => s ++ sep ++ goJoin sep ss

mutual
/-- The `Error()` method: a plain error returns its message; `multiError`
returns `"<n> errors:\n"` followed by the member messages joined by
newlines. -/
def errMsg : GoErr → String
  | .mk s => s
  | .multi es => toString es.length ++ " errors:\n" ++ goJoin "\n" (errMsgs es)

/-- Messages of a list of errors, in order (the loop in `multiError.Error`). -/
def errMsgs : List GoErr → List String
  | [] => []
  | e :: es => errMsg e :: errMsgs es
end

/-- Embeds `evalContext.recordError`: a nil error is ignored; the first error is
stored directly; further errors are wrapped pairwise into `multiError`. -/
def recordError (cur : Option GoErr) (err : Option GoErr) : Option GoErr :=
  match err with
  | none => cur
  | some e =>
    match cur with
    | none => some e
    | some old => some (.multi [old, e])

/-- Record a list of (non-nil) errors one after the other. -/
def recordErrors (cur : Option GoErr) (es : List GoErr) : Option GoErr :=
  es.foldl (fun c e => recordError c (some e)) cur

/-! ### "Contains the messages in order" — the property C2/C7 assert of
the composite error message. -/

/-- Embeds `inOrderL s ms`: the chunks `ms` occur inside `s` as disjoint
substrings, in the given order. -/
def inOrderL (s : List Char) : List (List Char) → Prop
  | [] => True
  | m :: ms => ∃ pre post, s = pre ++ m ++ post ∧ inOrderL post ms

/-- String-level version of `inOrderL`. -/
def containsInOrder (s : String) (ms : List String) : Prop :=
  inOrderL s.data (ms.map String.data)

/-! ### The expr package: data types and validations (expr/types.go,
expr/attribute.go) -/

/-- Embeds `expr.TypeKind`. -/
inductive TypeKind where
  | booleanKind | intKind | floatKind | stringKind | bytesKind
  | arrayKind | objectKind | mapKind
deriving Repr, DecidableEq

/-- Embeds `expr.DataType`: primitive types carry their name and kind
(`expr.PrimitiveType`); `ArrayType` and `MapType` are composite. -/
inductive DataType where
  | primitive (name : String) (kind : TypeKind)
  | array (elemType : DataType)
  | map (keyType elemType : DataType)
deriving Repr, DecidableEq

/-- The `expr.String` primitive (`&PrimitiveType{name: "string", kind: StringKind}`). -/
def stringDT : DataType := .primitive "string" .stringKind

/-- A Go `interface{}` value as far as the embedded code inspects it. -/
inductive GoValue where
  | str (s : String)
  | int (n : Int)
  | bool (b : Bool)
  | nil
deriving Repr, DecidableEq

/-- Embeds `expr.Validation` rules, by their concrete struct
(`RequiredValidation`, `MaxLengthValidation`, ..., from expr/types.go). -/
inductive Validation where
  | required
  | maxLength (max : Int)
  | minLength (min : Int)
  | format (fmt : String)
  | pattern (pat : String)
  | enum (values : List String)
  | minV (min : Int)
  | maxV (max : Int)
deriving Repr, DecidableEq

/-- Embeds `expr.FormatValidation.Validate` — the body is a TODO and returns nil
for every value. -/
def formatValidationValidate (fmt : String) (value : GoValue) : Option GoErr :=
  none

/-- Embeds `expr.PatternValidation.Validate` — the body is a TODO and returns nil
for every value. -/
def patternValidationValidate (pat : String) (value : GoValue) : Option GoErr :=
  none

/-! ### The dsl op language

Go configuration closures are opaque function values; their observable
behaviour is the sequence of builder calls they make against the eval
context.  A closure is therefore embedded as a list of `DSLOp`s, one per
builder call, each interpreted exactly as the corresponding builder
function in the dsl package.  The modelled fragment covers the builders
the claims cite: `Use` (dsl/app.go), `Type` and `Attribute`
(dsl/types.go) and `Actions` (dsl/resource.go); nested `func()`
configuration arguments to `Attribute` are outside the fragment. -/

/-- An argument passed to the `Attribute` builder (`args ...interface{}`),
tagged the way its type switch distinguishes them.  `badArg` stands for a
value of any other runtime type and carries that type's `%T` name. -/
inductive AttrArg where
  | dataTypeArg (t : DataType)
  | validationArg (v : Validation)
  | descriptionArg (s : String)
  | badArg (typeName : String)
deriving Repr, DecidableEq

/-- One builder call inside a configuration closure. -/
inductive DSLOp where
  | useOp (middleware : List String)
  | typOp (name : String) (body : Option (List DSLOp))
  | attributeOp (name : String) (args : List AttrArg)
  | actionsOp (actions : List String)
deriving Repr

/-! ### expr node structures -/

/-- Embeds `expr.AttributeExpr` (src/unnamed/part_011). -/
structure AttributeExpr where
  Name : String
  /-- Embeds `Type DataType` — a nillable interface field (`Type` is a Lean
  keyword, hence `Typ`). -/
  Typ : Option DataType
  Description : String
  Validations : List Validation
  DefaultValue : Option GoValue
  /-- Embeds `Meta map[string]interface{}` — `none` models the nil map. -/
  Meta : Option (List (String × GoValue))
deriving Repr

/-- Embeds `AttributeExpr.Prepare`: default the type to `String` and allocate
the Meta map when nil (one conditional field update per `if` statement
in the source; the two touch distinct fields). -/
def AttributeExpr.Prepare (a : AttributeExpr) : AttributeExpr :=
  { a with
    Typ := if a.Typ = none then some stringDT else a.Typ,
    Meta := if a.Meta = none then some [] else a.Meta }

/-- Embeds `AttributeExpr.Validate`. -/
def AttributeExpr.Validate (a : AttributeExpr) : Option GoErr :=
  if a.Name = "" then some (.mk "attribute name cannot be empty")
  else if a.Typ = none then some (.mk "attribute type cannot be nil")
  else none

/-- Embeds `expr.FormExpr` (expr/form.go). -/
structure FormExpr where
  Name : String
  DSLFunc : Option (List DSLOp)
  Attributes : List AttributeExpr
deriving Repr

/-- Embeds `FormExpr.Prepare`: prepare every attribute. -/
def FormExpr.Prepare (f : FormExpr) : FormExpr :=
  { f with Attributes := f.Attributes.map AttributeExpr.Prepare }

/-- The attribute-validation loop inside `FormExpr.Validate`: return the
first attribute error. -/
def firstAttrErr : List AttributeExpr → Option GoErr
  | [] => none
  | a :: as =>
    match a.Validate with
    | some e => some e
    | none => firstAttrErr as

/-- Embeds `FormExpr.Validate`. -/
def FormExpr.Validate (f : FormExpr) : Option GoErr :=
  if f.Name = "" then some (.mk "form name cannot be empty")
  else firstAttrErr f.Attributes

/-- Embeds `expr.RouteExpr`. -/
structure RouteExpr where
  Method : String
  Path : String
deriving Repr, DecidableEq

/-- Embeds `expr.PageExpr` (part of part_010's page.go). -/
structure PageExpr where
  Name : String
  DSLFunc : Option (List DSLOp)
  Routes : List RouteExpr
  FormName : String
  Layout : String
  AuthRequirements : List String
deriving Repr

/-- Embeds `PageExpr.Prepare`: a routeless named page defaults to `GET /<name>`. -/
def PageExpr.Prepare (p : PageExpr) : PageExpr :=
  if p.Routes = [] ∧ p.Name ≠ "" then
    { p with Routes := [⟨"GET", "/" ++ p.Name⟩] }
  else p

/-- The valid HTTP methods map in `PageExpr.Validate`. -/
def validMethods : List String :=
  ["GET", "POST", "PUT", "PATCH", "DELETE", "HEAD", "OPTIONS"]

/-- The route-checking loop inside `PageExpr.Validate`. -/
def routesCheck : List RouteExpr → Option GoErr
  | [] => none
  | r :: rs =>
    if ¬ validMethods.contains r.Method then
      some (.mk ("invalid HTTP method: " ++ r.Method))
    else if r.Path = "" then some (.mk "route path cannot be empty")
    else routesCheck rs

/-- Embeds `PageExpr.Validate`. -/
def PageExpr.Validate (p : PageExpr) : Option GoErr :=
  if p.Name = "" then some (.mk "page name cannot be empty")
  else if p.Routes = [] then some (.mk "page must have at least one route")
  else routesCheck p.Routes

/-- Embeds `expr.ParamExpr`. -/
structure ParamExpr where
  Name : String
  Typ : Option DataType
  Default : Option GoValue
  Max : Option GoValue
  Description : String
deriving Repr

/-- Embeds `expr.ActionConfig`. -/
structure ActionConfig where
  Action : String
  FormName : String
  Params : List ParamExpr
deriving Repr

/-- Embeds `expr.ResourceExpr` (part of part_010's resource.go, the version with
action configs).  Go maps become association lists, their nil-ness an
`Option`; the `Parent *ResourceExpr` pointer is modelled by the parent's
name (it is never set in the modelled builder fragment). -/
structure ResourceExpr where
  Name : String
  DSLFunc : Option (List DSLOp)
  Actions : List String
  ParentName : Option String
  AuthRequirements : Option (List (String × List String))
  Pagination : Option (List (String × Int))
  SearchableFields : Option (List (String × List String))
  FilterableFields : Option (List (String × List String))
  CustomForms : Option (List (String × String))
  Layout : String
  Forms : Option (List (String × FormExpr))
  Singular : Bool
  ActionConfigs : Option (List (String × ActionConfig))
deriving Repr

/-- The seven default RESTful actions. -/
def defaultActions : List String :=
  ["index", "show", "new", "create", "edit", "update", "destroy"]

/-- Embeds `ResourceExpr.Prepare`: default the action list and allocate nil maps
(one conditional field update per `if` statement in the source; the
eight touch distinct fields). -/
def ResourceExpr.Prepare (r : ResourceExpr) : ResourceExpr :=
  { r with
    Actions := if r.Actions = [] then defaultActions else r.Actions,
    AuthRequirements := if r.AuthRequirements = none then some [] else r.AuthRequirements,
    Pagination := if r.Pagination = none then some [] else r.Pagination,
    Forms := if r.Forms.isNone then some [] else r.Forms,
    ActionConfigs := if r.ActionConfigs.isNone then some [] else r.ActionConfigs,
    SearchableFields := if r.SearchableFields = none then some [] else r.SearchableFields,
    FilterableFields := if r.FilterableFields = none then some [] else r.FilterableFields,
    CustomForms := if r.CustomForms = none then some [] else r.CustomForms }

/-- The action-name loop in `ResourceExpr.Validate`. -/
def actionsCheck : List String → Option GoErr
  | [] => none
  | a :: as =>
    if ¬ defaultActions.contains a then some (.mk ("invalid action: " ++ a))
    else actionsCheck as

/-- Embeds `ResourceExpr.Validate`. -/
def ResourceExpr.Validate (r : ResourceExpr) : Option GoErr :=
  if r.Name = "" then some (.mk "resource name cannot be empty")
  else actionsCheck r.Actions

/-- Embeds `expr.LayoutExpr`. -/
structure LayoutExpr where
  Name : String
  Template : String
  DSLFunc : Option (List DSLOp)
deriving Repr

/-- Embeds `expr.AppExpr` (expr/app.go). -/
structure AppExpr where
  Name : String
  Description : String
  DSLFunc : Option (List DSLOp)
  Resources : List ResourceExpr
  Pages : List PageExpr
  Forms : List FormExpr
  Layouts : List LayoutExpr
  DefaultLayout : String
  Middleware : List String
  SessionStore : String
  AssetsPath : String
deriving Repr

/-- Embeds `AppExpr.Prepare`: default layout (when layouts exist) and default
assets path (one conditional field update per `if` statement in the
source; the two touch distinct fields). -/
def AppExpr.Prepare (a : AppExpr) : AppExpr :=
  { a with
    DefaultLayout := if a.DefaultLayout = "" ∧ ¬ a.Layouts.isEmpty then
      "application" else a.DefaultLayout,
    AssetsPath := if a.AssetsPath = "" then "/static" else a.AssetsPath }

/-- Embeds `AppExpr.Validate`: an unnamed app returns the globally accumulated
context errors (`eval.Context.Errors`, passed explicitly here); a named
app returns nil. -/
def AppExpr.Validate (a : AppExpr) (ctxErrors : Option GoErr) : Option GoErr :=
  if a.Name = "" then ctxErrors else none

/-! ### The eval package: context, Execute and the builder semantics -/

/-- The dynamic type of an expression, as Go's type switches and the
`%T` verb observe it. -/
inductive NodeKind where
  | app | res | page | form | attr | layout | actionConfig
deriving Repr, DecidableEq

/-- What `%T` prints for the current expression in `IncompatibleDSL`
(`fmt.Errorf("incompatible DSL function called in %T context", Current())`). -/
def goTypeName : Option NodeKind → String
  | none => "<nil>"
  | some .app => "*expr.AppExpr"
  | some .res => "*expr.ResourceExpr"
  | some .page => "*expr.PageExpr"
  | some .form => "*expr.FormExpr"
  | some .attr => "*expr.AttributeExpr"
  | some .layout => "*expr.LayoutExpr"
  | some .actionConfig => "*expr.ActionConfig"

/-- An `eval.Expression` value: the tag is the dynamic type, the payload
the node's state. -/
inductive Node where
  | app (a : AppExpr)
  | res (r : ResourceExpr)
  | page (p : PageExpr)
  | form (f : FormExpr)
  | attr (a : AttributeExpr)
  | layout (l : LayoutExpr)
deriving Repr

/-- Dynamic type of a node. -/
def Node.kind : Node → NodeKind
  | .app _ => .app
  | .res _ => .res
  | .page _ => .page
  | .form _ => .form
  | .attr _ => .attr
  | .layout _ => .layout

/-- Downcast to `*expr.AppExpr`; the fallback is never reached because
the interpreter preserves the node's constructor. -/
def Node.asApp : Node → AppExpr → AppExpr
  | .app a, _ => a
  | _, d => d

/-- Downcast to `*expr.ResourceExpr`. -/
def Node.asRes : Node → ResourceExpr → ResourceExpr
  | .res r, _ => r
  | _, d => d

/-- Downcast to `*expr.PageExpr`. -/
def Node.asPage : Node → PageExpr → PageExpr
  | .page p, _ => p
  | _, d => d

/-- Downcast to `*expr.FormExpr`. -/
def Node.asForm : Node → FormExpr → FormExpr
  | .form f, _ => f
  | _, d => d

/-- The mutable part of `eval.evalContext` threaded through evaluation:
the current expression (by dynamic type) and the accumulated errors.
The root field is passed separately to `RunDSL`. -/
structure Ctx where
  current : Option NodeKind
  errors : Option GoErr
deriving Repr

/-- Embeds `eval.ReportError`: record a (possibly nil) error in the context. -/
def ReportError (c : Ctx) (err : Option GoErr) : Ctx :=
  { c with errors := recordError c.errors err }

/-- Embeds `eval.IncompatibleDSL`: report that a DSL function was called in the
wrong context, naming the current expression's dynamic type. -/
def IncompatibleDSL (c : Ctx) : Ctx :=
  ReportError c (some (.mk
    ("incompatible DSL function called in " ++ goTypeName c.current ++ " context")))

/-- Embeds `eval.InvalidArgError(expected, actual)`. -/
def InvalidArgError (c : Ctx) (expected typeName : String) : Ctx :=
  ReportError c (some (.mk
    ("invalid argument: expected " ++ expected ++ ", got " ++ typeName)))

/-- The argument-parsing loop of the `Attribute` builder (dsl/types.go):
types set `attr.Type`, validations are appended, strings become the
description, anything else reports an invalid argument. -/
def parseAttrArgs : List AttrArg → AttributeExpr → Ctx → AttributeExpr × Ctx
  | [], a, c => (a, c)
  | arg :: args, a, c =>
    match arg with
    | .dataTypeArg t => parseAttrArgs args { a with Typ := some t } c
    | .validationArg v =>
      parseAttrArgs args { a with Validations := a.Validations ++ [v] } c
    | .descriptionArg s => parseAttrArgs args { a with Description := s } c
    | .badArg tn =>
      parseAttrArgs args a (InvalidArgError c "type, validation, or description" tn)

mutual
/-- Run the builder calls of a closure in order, threading the current
node and the context (the body of `eval.Execute` after it has installed
the node as current). -/
def execOps : List DSLOp → Node → Ctx → Node × Ctx
  | [], n, c => (n, c)
  | op :: ops, n, c =>
    let r := execOp op n c
    execOps ops r.1 r.2

/-- One builder call, exactly as the dsl package implements it. -/
def execOp : DSLOp → Node → Ctx → Node × Ctx
  | .useOp mws, n, c =>
    -- dsl.Use: append middleware to the current app, else IncompatibleDSL.
    match n with
    | .app a => (.app { a with Middleware := a.Middleware ++ mws }, c)
    | _ => (n, IncompatibleDSL c)
  | .typOp name body, n, c =>
    -- dsl.Type: build a FormExpr, run its closure immediately
    -- (eval.Execute(fn, form), inlined: install the form as current,
    -- run, restore), then append the form to the current app.
    match n with
    | .app a =>
      let form0 : FormExpr := { Name := name, DSLFunc := body, Attributes := [] }
      match body with
      | some ops =>
        let old := c.current
        let r := execOps ops (.form form0) { c with current := some .form }
        (.app { a with Forms := a.Forms ++ [r.1.asForm form0] },
         { r.2 with current := old })
      | none => (.app { a with Forms := a.Forms ++ [form0] }, c)
    | _ => (n, IncompatibleDSL c)
  | .attributeOp name args, n, c =>
    -- dsl.Attribute: build an AttributeExpr from the arguments and
    -- append it to the current form, else IncompatibleDSL.
    match n with
    | .form f =>
      let r := parseAttrArgs args
        { Name := name, Typ := none, Description := "", Validations := [],
          DefaultValue := none, Meta := none } c
      (.form { f with Attributes := f.Attributes ++ [r.1] }, r.2)
    | _ => (n, IncompatibleDSL c)
  | .actionsOp acts, n, c =>
    -- dsl.Actions: set the action list of the current resource.
    match n with
    | .res r => (.res { r with Actions := acts }, c)
    | _ => (n, IncompatibleDSL c)
end

/-- Embeds `eval.Execute(dsl, expr)`: a nil closure is a no-op; otherwise the
node is installed as the current expression, the closure's builder calls
run, and the previous current expression is restored. -/
def Execute (dsl : Option (List DSLOp)) (n : Node) (c : Ctx) : Node × Ctx :=
  match dsl with
  | none => (n, c)
  | some ops =>
    let r := execOps ops n { c with current := some n.kind }
    (r.1, { r.2 with current := c.current })

/-! ### RunDSL: the four-phase pipeline (part_001) -/

/-- The four phases of `eval.RunDSL`. -/
inductive Phase where
  | execute | prepare | validate | finalize
deriving Repr, DecidableEq

/-- One visit of the walk: which phase processed which node
(dynamic type and `EvalName`). -/
abbrev Event : Type := Phase × NodeKind × String

/-- The walk over one child collection, mirroring `AppExpr.WalkSets`
handing each child as a singleton `ExpressionSet` to the phase's set
function: `step` is the set function's per-expression action, and each
visit is recorded as an event. -/
def walkList (ph : Phase) (kind : NodeKind) (name : α → String)
    (step : α → Ctx → α × Ctx) : List α → Ctx → List α × Ctx × List Event
  | [], c => ([], c, [])
  | x :: xs, c =>
    let r := step x c
    let rest := walkList ph kind name step xs r.2
    (r.1 :: rest.1, rest.2.1, (ph, kind, name x) :: rest.2.2)

/-- Result of one phase over the whole tree. -/
structure PhaseOut where
  app : AppExpr
  ctx : Ctx
  trace : List Event
deriving Repr

/-- The app tree after the root's own closure has run (the first half of
phase 1). -/
def rootExecutedApp (a : AppExpr) (c : Ctx) : AppExpr :=
  (Execute a.DSLFunc (.app a) c).1.asApp a

/-- The context after the root's own closure has run. -/
def rootExecutedCtx (a : AppExpr) (c : Ctx) : Ctx :=
  (Execute a.DSLFunc (.app a) c).2

/-- Phase 1 (`executeSet`): run the root's closure, then walk the child
collections running each child's closure. -/
def phase1 (a : AppExpr) (c : Ctx) : PhaseOut :=
  let a0 := rootExecutedApp a c
  let c0 := rootExecutedCtx a c
  let rs := walkList .execute .res (fun r => r.Name)
    (fun r c => let e := Execute r.DSLFunc (.res r) c; (e.1.asRes r, e.2))
    a0.Resources c0
  let ps := walkList .execute .page (fun p => p.Name)
    (fun p c => let e := Execute p.DSLFunc (.page p) c; (e.1.asPage p, e.2))
    a0.Pages rs.2.1
  let fs := walkList .execute .form (fun f => f.Name)
    (fun f c => let e := Execute f.DSLFunc (.form f) c; (e.1.asForm f, e.2))
    a0.Forms ps.2.1
  ⟨{ a0 with Resources := rs.1, Pages := ps.1, Forms := fs.1 }, fs.2.1,
   (.execute, .app, a.Name) :: (rs.2.2 ++ ps.2.2 ++ fs.2.2)⟩

/-- Phase 2 (`prepareSet`): `Prepare` the root, then every child. -/
def phase2 (a : AppExpr) (c : Ctx) : PhaseOut :=
  let a1 := AppExpr.Prepare a
  let rs := walkList .prepare .res (fun r => r.Name)
    (fun r c => (r.Prepare, c)) a1.Resources c
  let ps := walkList .prepare .page (fun p => p.Name)
    (fun p c => (p.Prepare, c)) a1.Pages rs.2.1
  let fs := walkList .prepare .form (fun f => f.Name)
    (fun f c => (f.Prepare, c)) a1.Forms ps.2.1
  ⟨{ a1 with Resources := rs.1, Pages := ps.1, Forms := fs.1 }, fs.2.1,
   (.prepare, .app, a.Name) :: (rs.2.2 ++ ps.2.2 ++ fs.2.2)⟩

/-- The child half of phase 3 (`validateSet`): validate every child,
reporting each failure into the context and continuing. -/
def validateChildren (a : AppExpr) (c : Ctx) : Ctx × List Event :=
  let rs := walkList .validate .res (fun r => r.Name)
    (fun r c => (r, ReportError c r.Validate)) a.Resources c
  let ps := walkList .validate .page (fun p => p.Name)
    (fun p c => (p, ReportError c p.Validate)) a.Pages rs.2.1
  let fs := walkList .validate .form (fun f => f.Name)
    (fun f c => (f, ReportError c f.Validate)) a.Forms ps.2.1
  (fs.2.1, rs.2.2 ++ ps.2.2 ++ fs.2.2)

/-- Phase 4 (`finalizeSet`): no expression type implements `Finalizer`,
so the walk visits every node without any effect. -/
def finalizeWalk (a : AppExpr) (c : Ctx) : Ctx × List Event :=
  let rs := walkList .finalize .res (fun r => r.Name)
    (fun r c => (r, c)) a.Resources c
  let ps := walkList .finalize .page (fun p => p.Name)
    (fun p c => (p, c)) a.Pages rs.2.1
  let fs := walkList .finalize .form (fun f => f.Name)
    (fun f c => (f, c)) a.Forms ps.2.1
  (fs.2.1,
   (Phase.finalize, NodeKind.app, a.Name) :: (rs.2.2 ++ ps.2.2 ++ fs.2.2))

/-- What `eval.RunDSL` produces: the returned error, the final tree, and
the trace of the walk. -/
structure RunResult where
  err : Option GoErr
  finalApp : Option AppExpr
  trace : List Event
deriving Repr

/-- Embeds `eval.RunDSL` (part_001): nil root errors out; phase 1 runs the
closures and aborts with the accumulated errors if any were recorded;
phase 2 prepares; the root's own `Validate` error returns immediately;
`validateSet` collects child validation errors; phase 4 finalizes; the
accumulated errors are returned. -/
def RunDSL (root : Option AppExpr) (c : Ctx) : RunResult :=
  match root with
  | none => ⟨some (.mk "no root expression found"), none, []⟩
  | some a =>
    let p1 := phase1 a c
    match p1.ctx.errors with
    | some e => ⟨some e, some p1.app, p1.trace⟩
    | none =>
      let p2 := phase2 p1.app p1.ctx
      match AppExpr.Validate p2.app p2.ctx.errors with
      | some e =>
        ⟨some e, some p2.app,
         p1.trace ++ p2.trace ++ [(Phase.validate, NodeKind.app, p2.app.Name)]⟩
      | none =>
        let v := validateChildren p2.app p2.ctx
        let f := finalizeWalk p2.app v.1
        ⟨f.1.errors, some p2.app,
         p1.trace ++ p2.trace
           ++ ((Phase.validate, NodeKind.app, p2.app.Name) :: v.2) ++ f.2⟩

/-! ### The runtime package: form validators (runtime/validation.go)

The standard-library calls the validators wrap are modelled as explicit
parameters: `parseAddressOk v` is whether `mail.ParseAddress(v)`
succeeds, `parseURL v` is `url.Parse(v)`'s scheme and host (`none` when
it errors), and `matchString pat v` is `regexp.MatchString(pat, v)`
(`none` when the pattern does not compile).  `strings.TrimSpace` is
embedded directly via Unicode's White_Space property. -/

/-- Embeds `runtime.ValidationError` (field + message; `Error()` is
`"field: message"`). -/
structure RtValidationError where
  Field : String
  Message : String
deriving Repr, DecidableEq

/-- Embeds `runtime.Validator`: an accumulating list of validation errors. -/
structure Validator where
  errors : List RtValidationError
deriving Repr, DecidableEq

/-- Embeds `unicode.IsSpace` — Unicode's White_Space code points. -/
def goIsSpace (ch : Char) : Bool :=
  (0x9 ≤ ch.val ∧ ch.val ≤ 0xD) ∨ ch.val = 0x20 ∨ ch.val = 0x85 ∨
    ch.val = 0xA0 ∨ ch.val = 0x1680 ∨ (0x2000 ≤ ch.val ∧ ch.val ≤ 0x200A) ∨
    ch.val = 0x2028 ∨ ch.val = 0x2029 ∨ ch.val = 0x202F ∨ ch.val = 0x205F ∨
    ch.val = 0x3000

/-- Embeds `strings.TrimSpace`: drop leading and trailing white space. -/
def goTrimSpace (s : String) : String :=
  ⟨((s.data.dropWhile goIsSpace).reverse.dropWhile goIsSpace).reverse⟩

/-- Embeds `Validator.Required`: a field whose value trims to empty is
required-rejected. -/
def Validator.Required (v : Validator) (field value : String) : Validator :=
  if goTrimSpace value = "" then
    { v with errors := v.errors ++ [⟨field, "is required"⟩] }
  else v

/-- Embeds `Validator.Email`: the empty value passes; otherwise an error is
recorded exactly when `mail.ParseAddress` fails. -/
def Validator.Email (parseAddressOk : String → Bool) (v : Validator)
    (field value : String) : Validator :=
  if value = "" then v
  else if parseAddressOk value then v
  else { v with errors := v.errors ++ [⟨field, "must be a valid email address"⟩] }

/-- Embeds `Validator.URL`: the empty value passes; otherwise an error is
recorded when `url.Parse` fails or the scheme or host is empty. -/
def Validator.URL (parseURL : String → Option (String × String)) (v : Validator)
    (field value : String) : Validator :=
  if value = "" then v
  else
    match parseURL value with
    | none => { v with errors := v.errors ++ [⟨field, "must be a valid URL"⟩] }
    | some (scheme, host) =>
      if scheme = "" ∨ host = "" then
        { v with errors := v.errors ++ [⟨field, "must be a valid URL"⟩] }
      else v

/-- Embeds `Validator.Pattern`: the empty value passes; otherwise an error is
recorded when `regexp.MatchString` errors or reports no match. -/
def Validator.Pattern (matchString : String → String → Option Bool) (v : Validator)
    (field value pattern : String) : Validator :=
  if value = "" then v
  else
    match matchString pattern value with
    | some true => v
    | _ => { v with errors := v.errors ++ [⟨field, "format is invalid"⟩] }

/-! ### Walk lemmas -/

/-- Visits of the child collections in declaration order: all resources,
then all pages, then all forms. -/
def childVisits (ph : Phase) (a : AppExpr) : List Event :=
  a.Resources.map (fun r => (ph, NodeKind.res, r.Name))
    ++ a.Pages.map (fun p => (ph, NodeKind.page, p.Name))
    ++ a.Forms.map (fun f => (ph, NodeKind.form, f.Name))

/-- A full phase walk: root first, then the child collections. -/
def walkTrace (ph : Phase) (a : AppExpr) : List Event :=
  (ph, NodeKind.app, a.Name) :: childVisits ph a

/-- The child validation failures, in walk order. -/
def childFailures (a : AppExpr) : List GoErr :=
  a.Resources.filterMap ResourceExpr.Validate
    ++ a.Pages.filterMap PageExpr.Validate
    ++ a.Forms.filterMap FormExpr.Validate

/-- Data for the C1 witness: one resource, one page, one form, no
closures, nothing invalid. -/
def wRes1 : ResourceExpr :=
  { Name := "posts", DSLFunc := none, Actions := ["index", "show"],
    ParentName := none, AuthRequirements := none, Pagination := none,
    SearchableFields := none, FilterableFields := none, CustomForms := none,
    Layout := "", Forms := none, Singular := false, ActionConfigs := none }

/-- Data for the C1 witness. -/
def wPage1 : PageExpr :=
  { Name := "home", DSLFunc := none, Routes := [⟨"GET", "/"⟩],
    FormName := "", Layout := "", AuthRequirements := [] }

/-- Data for the C1 witness. -/
def wForm1 : FormExpr := { Name := "LoginForm", DSLFunc := none, Attributes := [] }

/-- Data for the C1 witness. -/
def wApp1 : AppExpr :=
  { Name := "blog", Description := "", DSLFunc := none, Resources := [wRes1],
    Pages := [wPage1], Forms := [wForm1], Layouts := [], DefaultLayout := "",
    Middleware := [], SessionStore := "", AssetsPath := "" }

/-- The initial evaluation context. -/
def wCtx : Ctx := ⟨none, none⟩

/-- Data for the C2 witness: a form with an empty name and a form with an
unnamed attribute, so two child validations fail. -/
def wBadForm1 : FormExpr := { Name := "", DSLFunc := none, Attributes := [] }

/-- Data for the C2 witness. -/
def wBadAttr2 : AttributeExpr :=
  { Name := "", Typ := none, Description := "", Validations := [],
    DefaultValue := none, Meta := none }

/-- Data for the C2 witness. -/
def wBadForm2 : FormExpr :=
  { Name := "SignupForm", DSLFunc := none, Attributes := [wBadAttr2] }

/-- Data for the C2 witness. -/
def wApp2 : AppExpr :=
  { Name := "blog", Description := "", DSLFunc := none, Resources := [],
    Pages := [], Forms := [wBadForm1, wBadForm2], Layouts := [],
    DefaultLayout := "", Middleware := [], SessionStore := "", AssetsPath := "" }

/-- Data for the C3 witness: the root closure calls the `Actions` builder
in a WebApp context, which is an incompatible-DSL programmer error. -/
def wApp3 : AppExpr :=
  { Name := "blog", Description := "",
    DSLFunc := some [DSLOp.actionsOp ["index"]], Resources := [],
    Pages := [], Forms := [], Layouts := [], DefaultLayout := "",
    Middleware := [], SessionStore := "", AssetsPath := "" }

/-- The error the C3 witness records during phase 1. -/
def wErr3 : GoErr :=
  .mk "incompatible DSL function called in *expr.AppExpr context"

/-- Data for the C6 witness. -/
def wRes6 : ResourceExpr :=
  { Name := "posts", DSLFunc := none, Actions := [], ParentName := none,
    AuthRequirements := none, Pagination := none, SearchableFields := none,
    FilterableFields := none, CustomForms := none, Layout := "",
    Forms := none, Singular := false, ActionConfigs := none }

/-- Data for the C6 witness. -/
def wApp6 : AppExpr :=
  { Name := "blog", Description := "", DSLFunc := none, Resources := [],
    Pages := [], Forms := [], Layouts := [], DefaultLayout := "",
    Middleware := [], SessionStore := "", AssetsPath := "" }

/-- Data for the C6 witness. -/
def wAttr6 : AttributeExpr :=
  { Name := "title", Typ := none, Description := "", Validations := [],
    DefaultValue := none, Meta := none }

/-- Data for the C9 witness: an app whose name is empty. -/
def wApp9 : AppExpr := { wApp6 with Name := "" }

theorem inOrderL_append_left {s : List Char} {ms : List (List Char)}
    (p : List Char) (h : inOrderL s ms) : inOrderL (p ++ s) ms := by
  cases ms with
  | nil => trivial
  | cons m ms =>
    obtain ⟨pre, post, hs, hrest⟩ := h
    exact ⟨p ++ pre, post, by simp [hs], hrest⟩

theorem inOrderL_append_right {ms : List (List Char)} :
    ∀ {s : List Char}, inOrderL s ms → ∀ (q : List Char), inOrderL (s ++ q) ms := by
  induction ms with
  | nil => intro s _ q; trivial
  | cons m ms ih =>
    intro s h q
    obtain ⟨pre, post, hs, hrest⟩ := h
    exact ⟨pre, post ++ q, by simp [hs], ih hrest q⟩

theorem inOrderL_append {ms ns : List (List Char)} :
    ∀ {s t : List Char}, inOrderL s ms → inOrderL t ns →
      inOrderL (s ++ t) (ms ++ ns) := by
  induction ms with
  | nil => intro s t _ ht; exact inOrderL_append_left s ht
  | cons m ms ih =>
    intro s t hs ht
    obtain ⟨pre, post, hdec, hrest⟩ := hs
    exact ⟨pre, post ++ t, by simp [hdec], ih hrest ht⟩

theorem inOrderL_single (p q m : List Char) : inOrderL (p ++ m ++ q) [m] :=
  ⟨p, q, by simp, trivial⟩

theorem data_append (p q : String) : (p ++ q).data = p.data ++ q.data := by
  cases p; cases q; rfl

/-- Unfolding `errMsg` on the pairwise aggregate built by `recordError`. -/
theorem errMsg_multi_pair (a b : GoErr) :
    errMsg (.multi [a, b]) = "2 errors:\n" ++ (errMsg a ++ "\n" ++ errMsg b) := by
  simp [errMsg, errMsgs, goJoin]
  rfl

/-- Accumulating more errors onto `a` preserves (and extends) the
in-order occurrence of messages inside the composite message. -/
theorem accum_inOrder :
    ∀ (es : List GoErr) (a : GoErr) (ms : List (List Char)),
      inOrderL (errMsg a).data ms →
      inOrderL (errMsg (es.foldl (fun x e => GoErr.multi [x, e]) a)).data
        (ms ++ es.map (fun e => (errMsg e).data)) := by
  intro es
  induction es with
  | nil => intro a ms h; simpa using h
  | cons e es ih =>
    intro a ms h
    have step : inOrderL (errMsg (GoErr.multi [a, e])).data (ms ++ [(errMsg e).data]) := by
      rw [errMsg_multi_pair]
      rw [data_append, data_append, data_append]
      apply inOrderL_append_left
      rw [List.append_assoc]
      exact inOrderL_append h ⟨"\n".data, [], by simp, trivial⟩
    have := ih (GoErr.multi [a, e]) (ms ++ [(errMsg e).data]) step
    simpa [List.foldl_cons, List.append_assoc] using this

theorem recordErrors_some (a : GoErr) (es : List GoErr) :
    recordErrors (some a) es = some (es.foldl (fun x e => GoErr.multi [x, e]) a) := by
  induction es generalizing a with
  | nil => rfl
  | cons e es ih => simpa [recordErrors, recordError] using ih (GoErr.multi [a, e])

theorem walkList_trace (ph : Phase) (k : NodeKind) (name : α → String)
    (step : α → Ctx → α × Ctx) :
    ∀ (xs : List α) (c : Ctx),
      (walkList ph k name step xs c).2.2 = xs.map (fun x => (ph, k, name x)) := by
  intro xs
  induction xs with
  | nil => intro c; rfl
  | cons x xs ih => intro c; simp [walkList, ih]

theorem walkList_ctx_id (ph : Phase) (k : NodeKind) (name : α → String)
    (step : α → Ctx → α × Ctx) (hstep : ∀ x c, (step x c).2 = c) :
    ∀ (xs : List α) (c : Ctx), (walkList ph k name step xs c).2.1 = c := by
  intro xs
  induction xs with
  | nil => intro c; rfl
  | cons x xs ih => intro c; simp [walkList, hstep, ih]

theorem walkList_ctx_report (ph : Phase) (k : NodeKind) (name : α → String)
    (val : α → Option GoErr) :
    ∀ (xs : List α) (c : Ctx),
      (walkList ph k name (fun x c => (x, ReportError c (val x))) xs c).2.1
        = { c with errors := recordErrors c.errors (xs.filterMap val) } := by
  intro xs
  induction xs with
  | nil => intro c; rfl
  | cons x xs ih =>
    intro c
    simp only [walkList]
    rw [ih]
    cases hv : val x with
    | none => simp [ReportError, recordError, hv]
    | some e => simp [ReportError, recordError, recordErrors, hv]

theorem recordErrors_append (c : Option GoErr) (es fs : List GoErr) :
    recordErrors (recordErrors c es) fs = recordErrors c (es ++ fs) := by
  simp [recordErrors]

theorem phase1_trace (a : AppExpr) (c : Ctx) :
    (phase1 a c).trace
      = (Phase.execute, NodeKind.app, a.Name)
          :: childVisits .execute (rootExecutedApp a c) := by
  simp [phase1, childVisits, walkList_trace]

theorem phase2_trace (a : AppExpr) (c : Ctx) :
    (phase2 a c).trace = walkTrace .prepare a := by
  have hr : (AppExpr.Prepare a).Resources = a.Resources := rfl
  have hp : (AppExpr.Prepare a).Pages = a.Pages := rfl
  have hf : (AppExpr.Prepare a).Forms = a.Forms := rfl
  simp [phase2, walkTrace, childVisits, walkList_trace, hr, hp, hf]

theorem phase2_ctx (a : AppExpr) (c : Ctx) : (phase2 a c).ctx = c := by
  simp only [phase2]
  rw [walkList_ctx_id Phase.prepare NodeKind.form (fun (f : FormExpr) => f.Name)
      (fun f c => (f.Prepare, c)) (fun _ _ => rfl),
    walkList_ctx_id Phase.prepare NodeKind.page (fun (p : PageExpr) => p.Name)
      (fun p c => (p.Prepare, c)) (fun _ _ => rfl),
    walkList_ctx_id Phase.prepare NodeKind.res (fun (r : ResourceExpr) => r.Name)
      (fun r c => (r.Prepare, c)) (fun _ _ => rfl)]

theorem validateChildren_trace (a : AppExpr) (c : Ctx) :
    (validateChildren a c).2 = childVisits .validate a := by
  simp [validateChildren, childVisits, walkList_trace]

theorem validateChildren_ctx (a : AppExpr) (c : Ctx) :
    (validateChildren a c).1
      = { c with errors := recordErrors c.errors (childFailures a) } := by
  simp [validateChildren, walkList_ctx_report, childFailures, recordErrors_append]

theorem finalizeWalk_trace (a : AppExpr) (c : Ctx) :
    (finalizeWalk a c).2 = walkTrace .finalize a := by
  simp [finalizeWalk, walkTrace, childVisits, walkList_trace]

theorem finalizeWalk_ctx (a : AppExpr) (c : Ctx) : (finalizeWalk a c).1 = c := by
  simp only [finalizeWalk]
  rw [walkList_ctx_id Phase.finalize NodeKind.form (fun (f : FormExpr) => f.Name)
      (fun f c => (f, c)) (fun _ _ => rfl),
    walkList_ctx_id Phase.finalize NodeKind.page (fun (p : PageExpr) => p.Name)
      (fun p c => (p, c)) (fun _ _ => rfl),
    walkList_ctx_id Phase.finalize NodeKind.res (fun (r : ResourceExpr) => r.Name)
      (fun r c => (r, c)) (fun _ _ => rfl)]

theorem appValidate_none (a : AppExpr) : AppExpr.Validate a none = none := by
  simp only [AppExpr.Validate]; split <;> rfl

/-- A value trims to empty exactly when every character is white space. -/
theorem goTrimSpace_eq_empty_iff (s : String) :
    goTrimSpace s = "" ↔ s.data.all goIsSpace := by
  have hmk : goTrimSpace s = "" ↔
      ((s.data.dropWhile goIsSpace).reverse.dropWhile goIsSpace).reverse = [] := by
    constructor
    · intro h
      have := congrArg String.data h
      simpa [goTrimSpace] using this
    · intro h
      simp [goTrimSpace, h]
  have hdw : ∀ (l : List Char),
      (∀ x ∈ l.dropWhile goIsSpace, goIsSpace x) ↔ ∀ x ∈ l, goIsSpace x := by
    intro l
    constructor
    · intro h x hx
      rcases List.mem_append.mp
          (by rw [List.takeWhile_append_dropWhile]; exact hx :
            x ∈ l.takeWhile goIsSpace ++ l.dropWhile goIsSpace) with h1 | h2
      · exact List.mem_takeWhile_imp h1
      · exact h x h2
    · intro h x hx
      exact h x (List.dropWhile_sublist goIsSpace |>.mem hx)
  rw [hmk, List.reverse_eq_nil_iff, List.dropWhile_eq_nil_iff]
  constructor
  · intro h
    rw [List.all_eq_true]
    exact (hdw s.data).mp (fun x hx => h x (List.mem_reverse.mpr hx))
  · intro h x hx
    have := (hdw s.data).mpr (fun x hx => List.all_eq_true.mp h x hx)
    exact this x (List.mem_reverse.mp hx)

/-- Every event of the phase-1 trace belongs to the execute phase. -/
theorem phase1_trace_all_execute (a : AppExpr) (c : Ctx) :
    ∀ ev ∈ (phase1 a c).trace, ev.1 = Phase.execute := by
  intro ev hev
  rw [phase1_trace a c] at hev
  rcases List.mem_cons.mp hev with rfl | hev
  · rfl
  · simp only [childVisits, List.mem_append, List.mem_map] at hev
    rcases hev with (⟨x, _, rfl⟩ | ⟨x, _, rfl⟩) | ⟨x, _, rfl⟩ <;> rfl

/-- Recording a non-empty list of errors into a fresh context yields one
composite error whose message contains every message in order. -/
theorem recordErrors_none_inOrder (es : List GoErr) (hne : es ≠ []) :
    ∃ E, recordErrors none es = some E
      ∧ containsInOrder (errMsg E) (es.map errMsg) := by
  cases es with
  | nil => exact absurd rfl hne
  | cons e es =>
    refine ⟨es.foldl (fun x e => GoErr.multi [x, e]) e, ?_, ?_⟩
    · have : recordErrors none (e :: es) = recordErrors (some e) es := rfl
      rw [this, recordErrors_some]
    · have base : inOrderL (errMsg e).data [(errMsg e).data] :=
        ⟨[], [], by simp, trivial⟩
      have := accum_inOrder es e [(errMsg e).data] base
      simpa [containsInOrder, List.map_map, Function.comp] using this

/-- Embeds `RunDSL` in the successful case: phase 1 left no error, so the root
validates to nil, the child validations are collected, and the walk
completes all four phases. -/
theorem runDSL_success (a : AppExpr) (c : Ctx)
    (h : (phase1 a c).ctx.errors = none) :
    RunDSL (some a) c =
      ⟨recordErrors none
          (childFailures (phase2 (phase1 a c).app (phase1 a c).ctx).app),
       some (phase2 (phase1 a c).app (phase1 a c).ctx).app,
       (phase1 a c).trace
         ++ walkTrace .prepare (phase1 a c).app
         ++ walkTrace .validate (phase2 (phase1 a c).app (phase1 a c).ctx).app
         ++ walkTrace .finalize (phase2 (phase1 a c).app (phase1 a c).ctx).app⟩ := by
  have hval : AppExpr.Validate (phase2 (phase1 a c).app (phase1 a c).ctx).app
      (phase2 (phase1 a c).app (phase1 a c).ctx).ctx.errors = none := by
    rw [phase2_ctx, h]
    exact appValidate_none _
  simp only [RunDSL]
  rw [h]
  simp only []
  rw [hval]
  simp only [finalizeWalk_ctx, validateChildren_ctx, phase2_ctx, h]
  refine congrArg₂ (RunResult.mk · (some _) ·) rfl ?_
  simp [phase2_trace, validateChildren_trace, finalizeWalk_trace, walkTrace,
    List.append_assoc]

/-! ### Claim theorems -/

theorem incompat_msg_form :
    "incompatible DSL function called in " ++ goTypeName (some NodeKind.form)
        ++ " context"
      = "incompatible DSL function called in *expr.FormExpr context" := rfl

theorem incompat_msg_res :
    "incompatible DSL function called in " ++ goTypeName (some NodeKind.res)
        ++ " context"
      = "incompatible DSL function called in *expr.ResourceExpr context" := rfl

theorem incompat_msg_app :
    "incompatible DSL function called in " ++ goTypeName (some NodeKind.app)
        ++ " context"
      = "incompatible DSL function called in *expr.AppExpr context" := rfl

theorem incompat_msg_attr :
    "incompatible DSL function called in " ++ goTypeName (some NodeKind.attr)
        ++ " context"
      = "incompatible DSL function called in *expr.AttributeExpr context" := rfl

/-- C1: with a non-nil root and no phase-1 error, `RunDSL` runs the four
phases in the fixed order Execute, Prepare, Validate, Finalize: the trace
is the concatenation of the four full phase walks, the execute phase
covers the root's closure first and then every child's, and no later
phase event precedes it. -/
theorem c1_four_phase_order (a : AppExpr) (c : Ctx)
    (h : (phase1 a c).ctx.errors = none) :
    ((RunDSL (some a) c).trace
        = (phase1 a c).trace
          ++ walkTrace .prepare (phase1 a c).app
          ++ walkTrace .validate (phase2 (phase1 a c).app (phase1 a c).ctx).app
          ++ walkTrace .finalize (phase2 (phase1 a c).app (phase1 a c).ctx).app)
    ∧ (phase1 a c).trace
        = (Phase.execute, NodeKind.app, a.Name)
            :: childVisits .execute (rootExecutedApp a c)
    ∧ (∀ ev ∈ (phase1 a c).trace, ev.1 = Phase.execute) := by
  refine ⟨?_, phase1_trace a c, phase1_trace_all_execute a c⟩
  rw [runDSL_success a c h]

theorem c1_four_phase_order_witness :
    ((phase1 wApp1 wCtx).ctx.errors = none)
  ∧ (((RunDSL (some wApp1) wCtx).trace
        = (phase1 wApp1 wCtx).trace
          ++ walkTrace .prepare (phase1 wApp1 wCtx).app
          ++ walkTrace .validate
              (phase2 (phase1 wApp1 wCtx).app (phase1 wApp1 wCtx).ctx).app
          ++ walkTrace .finalize
              (phase2 (phase1 wApp1 wCtx).app (phase1 wApp1 wCtx).ctx).app)
      ∧ (phase1 wApp1 wCtx).trace
          = (Phase.execute, NodeKind.app, wApp1.Name)
              :: childVisits .execute (rootExecutedApp wApp1 wCtx)
      ∧ (∀ ev ∈ (phase1 wApp1 wCtx).trace, ev.1 = Phase.execute)) :=
  ⟨rfl, c1_four_phase_order wApp1 wCtx rfl⟩

/-- C2: when evaluation reaches phase 3, every failing child `Validate`
is recorded — the returned error is exactly the fold of all child
failures, and when there are several they all occur, in walk order,
inside the single returned error's message. -/
theorem c2_validation_collects_all (a : AppExpr) (c : Ctx)
    (h : (phase1 a c).ctx.errors = none) :
    ((RunDSL (some a) c).err
        = recordErrors none
            (childFailures (phase2 (phase1 a c).app (phase1 a c).ctx).app))
    ∧ (childFailures (phase2 (phase1 a c).app (phase1 a c).ctx).app ≠ [] →
        ∃ E, (RunDSL (some a) c).err = some E
          ∧ containsInOrder (errMsg E)
              ((childFailures
                  (phase2 (phase1 a c).app (phase1 a c).ctx).app).map errMsg)) := by
  have herr : (RunDSL (some a) c).err
      = recordErrors none
          (childFailures (phase2 (phase1 a c).app (phase1 a c).ctx).app) := by
    rw [runDSL_success a c h]
  refine ⟨herr, fun hne => ?_⟩
  obtain ⟨E, hE, hord⟩ := recordErrors_none_inOrder _ hne
  exact ⟨E, by rw [herr, hE], hord⟩

theorem c2_validation_collects_all_witness :
    ((phase1 wApp2 wCtx).ctx.errors = none)
  ∧ (childFailures (phase2 (phase1 wApp2 wCtx).app (phase1 wApp2 wCtx).ctx).app
      = [GoErr.mk "form name cannot be empty",
         GoErr.mk "attribute name cannot be empty"])
  ∧ (((RunDSL (some wApp2) wCtx).err
        = recordErrors none
            (childFailures (phase2 (phase1 wApp2 wCtx).app (phase1 wApp2 wCtx).ctx).app))
      ∧ (childFailures (phase2 (phase1 wApp2 wCtx).app (phase1 wApp2 wCtx).ctx).app ≠ [] →
          ∃ E, (RunDSL (some wApp2) wCtx).err = some E
            ∧ containsInOrder (errMsg E)
                ((childFailures
                    (phase2 (phase1 wApp2 wCtx).app (phase1 wApp2 wCtx).ctx).app).map
                  errMsg))) :=
  ⟨rfl, rfl, c2_validation_collects_all wApp2 wCtx rfl⟩

/-- C3: an error recorded during phase 1 (e.g. an incompatible-DSL
programmer error) is reported immediately — `RunDSL` returns it right
after phase 1 and the trace holds no phase-2/3/4 event — while child
validation failures are collected by `validateSet` without stopping the
walk and surface in the context at the end of the phase. -/
theorem c3_programmer_vs_data_errors (a : AppExpr) (c : Ctx) (e : GoErr) :
    ((phase1 a c).ctx.errors = some e →
      (RunDSL (some a) c).err = some e
      ∧ (RunDSL (some a) c).trace = (phase1 a c).trace
      ∧ ∀ ev ∈ (RunDSL (some a) c).trace, ev.1 = Phase.execute)
  ∧ (∀ (a2 : AppExpr) (c2 : Ctx),
      (validateChildren a2 c2).1.errors = recordErrors c2.errors (childFailures a2)
      ∧ (validateChildren a2 c2).2 = childVisits .validate a2) := by
  constructor
  · intro h
    have hr : RunDSL (some a) c
        = ⟨some e, some (phase1 a c).app, (phase1 a c).trace⟩ := by
      simp only [RunDSL]
      rw [h]
    refine ⟨by rw [hr], by rw [hr], ?_⟩
    intro ev hev
    rw [hr] at hev
    exact phase1_trace_all_execute a c ev hev
  · intro a2 c2
    exact ⟨by rw [validateChildren_ctx], validateChildren_trace a2 c2⟩

theorem c3_programmer_vs_data_errors_witness :
    ((phase1 wApp3 wCtx).ctx.errors = some wErr3)
  ∧ ((RunDSL (some wApp3) wCtx).err = some wErr3
      ∧ (RunDSL (some wApp3) wCtx).trace = (phase1 wApp3 wCtx).trace
      ∧ ∀ ev ∈ (RunDSL (some wApp3) wCtx).trace, ev.1 = Phase.execute) := by
  have h : (phase1 wApp3 wCtx).ctx.errors = some wErr3 := by
    simp [phase1, rootExecutedCtx, rootExecutedApp, Execute, execOps, execOp,
      IncompatibleDSL, ReportError, recordError, walkList, wApp3, wCtx,
      Node.kind, incompat_msg_app, wErr3]
  exact ⟨h, (c3_programmer_vs_data_errors wApp3 wCtx wErr3).1 h⟩

/-- C4: in every phase the walk visits the root first and then the app's
children in declaration order — all resources, then all pages, then all
forms (for the execute phase, the collections are those present after
the root's closure has run). -/
theorem c4_walk_order (a : AppExpr) (c : Ctx) :
    ((phase1 a c).trace
        = (Phase.execute, NodeKind.app, a.Name)
            :: ((rootExecutedApp a c).Resources.map
                  (fun r => (Phase.execute, NodeKind.res, r.Name))
              ++ (rootExecutedApp a c).Pages.map
                  (fun p => (Phase.execute, NodeKind.page, p.Name))
              ++ (rootExecutedApp a c).Forms.map
                  (fun f => (Phase.execute, NodeKind.form, f.Name))))
  ∧ ((phase2 a c).trace
        = (Phase.prepare, NodeKind.app, a.Name)
            :: (a.Resources.map (fun r => (Phase.prepare, NodeKind.res, r.Name))
              ++ a.Pages.map (fun p => (Phase.prepare, NodeKind.page, p.Name))
              ++ a.Forms.map (fun f => (Phase.prepare, NodeKind.form, f.Name))))
  ∧ ((Phase.validate, NodeKind.app, a.Name) :: (validateChildren a c).2
        = (Phase.validate, NodeKind.app, a.Name)
            :: (a.Resources.map (fun r => (Phase.validate, NodeKind.res, r.Name))
              ++ a.Pages.map (fun p => (Phase.validate, NodeKind.page, p.Name))
              ++ a.Forms.map (fun f => (Phase.validate, NodeKind.form, f.Name))))
  ∧ ((finalizeWalk a c).2
        = (Phase.finalize, NodeKind.app, a.Name)
            :: (a.Resources.map (fun r => (Phase.finalize, NodeKind.res, r.Name))
              ++ a.Pages.map (fun p => (Phase.finalize, NodeKind.page, p.Name))
              ++ a.Forms.map (fun f => (Phase.finalize, NodeKind.form, f.Name)))) := by
  refine ⟨?_, ?_, ?_, ?_⟩
  · simpa [childVisits] using phase1_trace a c
  · simpa [walkTrace, childVisits] using phase2_trace a c
  · simpa [childVisits] using validateChildren_trace a c
  · simpa [walkTrace, childVisits] using finalizeWalk_trace a c

/-- C5: during phase 1, `Execute` installs the node as the current
expression, restores the previous current expression when the closure
returns, and every modelled builder invoked while the current expression
has the wrong node kind leaves the node unchanged and records an
incompatible-DSL error naming the current context's type. -/
theorem c5_execute_context_and_incompatible_builders :
    (∀ (dsl : Option (List DSLOp)) (n : Node) (c : Ctx),
        ((Execute dsl n c).2).current = c.current)
  ∧ (∀ (ops : List DSLOp) (n : Node) (c : Ctx),
        Execute (some ops) n c
          = ((execOps ops n { c with current := some n.kind }).1,
             { (execOps ops n { c with current := some n.kind }).2 with
                 current := c.current }))
  ∧ (∀ (mws : List String) (n : Node) (c : Ctx), n.kind ≠ NodeKind.app →
        Execute (some [DSLOp.useOp mws]) n c
          = (n, { c with errors := recordError c.errors (some (.mk
              ("incompatible DSL function called in "
                ++ goTypeName (some n.kind) ++ " context"))) }))
  ∧ (∀ (name : String) (body : Option (List DSLOp)) (n : Node) (c : Ctx),
        n.kind ≠ NodeKind.app →
        Execute (some [DSLOp.typOp name body]) n c
          = (n, { c with errors := recordError c.errors (some (.mk
              ("incompatible DSL function called in "
                ++ goTypeName (some n.kind) ++ " context"))) }))
  ∧ (∀ (acts : List String) (n : Node) (c : Ctx), n.kind ≠ NodeKind.res →
        Execute (some [DSLOp.actionsOp acts]) n c
          = (n, { c with errors := recordError c.errors (some (.mk
              ("incompatible DSL function called in "
                ++ goTypeName (some n.kind) ++ " context"))) }))
  ∧ (∀ (name : String) (args : List AttrArg) (n : Node) (c : Ctx),
        n.kind ≠ NodeKind.form →
        Execute (some [DSLOp.attributeOp name args]) n c
          = (n, { c with errors := recordError c.errors (some (.mk
              ("incompatible DSL function called in "
                ++ goTypeName (some n.kind) ++ " context"))) })) := by
  refine ⟨fun dsl n c => ?_, fun ops n c => rfl, fun mws n c hk => ?_,
    fun name body n c hk => ?_, fun acts n c hk => ?_, fun name args n c hk => ?_⟩
  · cases dsl <;> rfl
  · cases n <;> first
      | exact absurd rfl hk
      | simp [Execute, execOps, execOp, IncompatibleDSL, ReportError, Node.kind]
  · cases n <;> first
      | exact absurd rfl hk
      | simp [Execute, execOps, execOp, IncompatibleDSL, ReportError, Node.kind]
  · cases n <;> first
      | exact absurd rfl hk
      | simp [Execute, execOps, execOp, IncompatibleDSL, ReportError, Node.kind]
  · cases n <;> first
      | exact absurd rfl hk
      | simp [Execute, execOps, execOp, IncompatibleDSL, ReportError, Node.kind]

theorem c5_execute_context_witness :
    ((Node.form wForm1).kind ≠ NodeKind.app)
  ∧ Execute (some [DSLOp.useOp ["Logger"]]) (Node.form wForm1) wCtx
      = (Node.form wForm1,
         { wCtx with errors := recordError wCtx.errors (some (.mk
             ("incompatible DSL function called in "
               ++ goTypeName (some (Node.form wForm1).kind) ++ " context"))) }) :=
  ⟨by decide,
   c5_execute_context_and_incompatible_builders.2.2.1 ["Logger"]
     (Node.form wForm1) wCtx (by decide)⟩

/-- C6: `Prepare` fills defaults — an empty resource action list becomes
the seven RESTful actions in order, an empty assets path becomes
`"/static"`, and a nil attribute type becomes `expr.String`. -/
theorem c6_prepare_defaults :
    (∀ (r : ResourceExpr), r.Actions = [] →
        (ResourceExpr.Prepare r).Actions
          = ["index", "show", "new", "create", "edit", "update", "destroy"])
  ∧ (∀ (a : AppExpr), a.AssetsPath = "" →
        (AppExpr.Prepare a).AssetsPath = "/static")
  ∧ (∀ (t : AttributeExpr), t.Typ = none →
        (AttributeExpr.Prepare t).Typ = some stringDT) := by
  refine ⟨fun r h => ?_, fun a h => ?_, fun t h => ?_⟩
  · simp [ResourceExpr.Prepare, h, defaultActions]
  · simp [AppExpr.Prepare, h]
  · simp [AttributeExpr.Prepare, h]

theorem c6_prepare_defaults_witness :
    wRes6.Actions = [] ∧ wApp6.AssetsPath = "" ∧ wAttr6.Typ = none
  ∧ (ResourceExpr.Prepare wRes6).Actions
      = ["index", "show", "new", "create", "edit", "update", "destroy"]
  ∧ (AppExpr.Prepare wApp6).AssetsPath = "/static"
  ∧ (AttributeExpr.Prepare wAttr6).Typ = some stringDT :=
  ⟨rfl, rfl, rfl,
   c6_prepare_defaults.1 wRes6 rfl,
   c6_prepare_defaults.2.1 wApp6 rfl,
   c6_prepare_defaults.2.2 wAttr6 rfl⟩

/-- C7: recording a sequence of non-nil errors yields a single composite
error whose message contains every recorded message in order, and
recording a nil error leaves the context's error state unchanged. -/
theorem c7_error_aggregation :
    (∀ (es : List GoErr), es ≠ [] →
        ∃ E, recordErrors none es = some E
          ∧ containsInOrder (errMsg E) (es.map errMsg))
  ∧ (∀ (cur : Option GoErr), recordError cur none = cur) := by
  constructor
  · intro es hne
    cases es with
    | nil => exact absurd rfl hne
    | cons e es =>
      refine ⟨es.foldl (fun x e => GoErr.multi [x, e]) e, ?_, ?_⟩
      · have : recordErrors none (e :: es) = recordErrors (some e) es := rfl
        rw [this, recordErrors_some]
      · have base : inOrderL (errMsg e).data [(errMsg e).data] :=
          ⟨[], [], by simp, trivial⟩
        have := accum_inOrder es e [(errMsg e).data] base
        simpa [containsInOrder, List.map_map, Function.comp] using this
  · intro cur; rfl

theorem c7_error_aggregation_witness :
    ([GoErr.mk "alpha", GoErr.mk "beta"] ≠ ([] : List GoErr))
  ∧ (∃ E, recordErrors none [GoErr.mk "alpha", GoErr.mk "beta"] = some E
      ∧ containsInOrder (errMsg E) ([GoErr.mk "alpha", GoErr.mk "beta"].map errMsg))
  ∧ recordError (some (GoErr.mk "alpha")) none = some (GoErr.mk "alpha") :=
  ⟨by simp,
   c7_error_aggregation.1 [GoErr.mk "alpha", GoErr.mk "beta"] (by simp),
   c7_error_aggregation.2 (some (GoErr.mk "alpha"))⟩

/-- C8 counterexample: the claim that the design-time
`PatternValidation.Validate` behaves like the runtime `Validator.Pattern`
is false — for a match function that rejects (as `regexp.MatchString`
does on pattern `^a$` and value `b`), the runtime validator records an
error while the design-time validator still returns nil. -/
theorem c8_counterexample :
    ¬ (∀ (m : String → String → Option Bool) (value pat : String),
        value ≠ "" →
        (((Validator.Pattern m ⟨[]⟩ "f" value pat).errors ≠ []) ↔
          (patternValidationValidate pat (GoValue.str value)).isSome = true)) := by
  intro h
  have h2 := h (fun _ _ => some false) "b" "^a$" (by decide)
  simp [Validator.Pattern, patternValidationValidate] at h2

/-- C8 (amended): for non-empty values the runtime `Validator.Email`
records an error exactly when `mail.ParseAddress` rejects the value and
`Validator.Pattern` exactly when `regexp.MatchString` errors or does not
match; the design-time `FormatValidation.Validate` and
`PatternValidation.Validate` are unimplemented and always return nil. -/
theorem c8_validators_amended :
    (∀ (parseAddressOk : String → Bool) (v : Validator) (field value : String),
        value ≠ "" →
        (Validator.Email parseAddressOk v field value).errors
          = v.errors ++ (if parseAddressOk value then []
              else [⟨field, "must be a valid email address"⟩]))
  ∧ (∀ (m : String → String → Option Bool) (v : Validator)
        (field value pat : String),
        value ≠ "" →
        (Validator.Pattern m v field value pat).errors
          = v.errors ++ (if m pat value = some true then []
              else [⟨field, "format is invalid"⟩]))
  ∧ (∀ (pat : String) (value : GoValue), patternValidationValidate pat value = none)
  ∧ (∀ (fmt : String) (value : GoValue), formatValidationValidate fmt value = none) := by
  refine ⟨fun parse v field value hne => ?_, fun m v field value pat hne => ?_,
    fun _ _ => rfl, fun _ _ => rfl⟩
  · simp only [Validator.Email, if_neg hne]
    split <;> simp
  · simp only [Validator.Pattern, if_neg hne]
    rcases hm : m pat value with _ | b
    · simp [hm]
    · cases b <;> simp [hm]

theorem c8_validators_amended_witness :
    ("bad" ≠ "")
  ∧ (Validator.Email (fun _ => false) ⟨[]⟩ "f" "bad").errors
      = [⟨"f", "must be a valid email address"⟩]
  ∧ (Validator.Pattern (fun _ _ => some false) ⟨[]⟩ "f" "bad" "^a$").errors
      = [⟨"f", "format is invalid"⟩]
  ∧ patternValidationValidate "^a$" (GoValue.str "bad") = none
  ∧ formatValidationValidate "email" (GoValue.str "bad") = none := by
  refine ⟨by decide, ?_, ?_,
    c8_validators_amended.2.2.1 "^a$" (GoValue.str "bad"),
    c8_validators_amended.2.2.2 "email" (GoValue.str "bad")⟩
  · have h := c8_validators_amended.1 (fun _ => false) ⟨[]⟩ "f" "bad" (by decide)
    simpa using h
  · have h := c8_validators_amended.2.1 (fun _ _ => some false) ⟨[]⟩ "f" "bad" "^a$"
      (by decide)
    simpa using h

/-- C9: `AppExpr.Validate` returns nil for a non-empty app name; for an
empty name it returns the globally accumulated context errors, so an
unnamed app still passes when nothing was recorded. -/
theorem c9_app_validate_name :
    (∀ (a : AppExpr) (e : Option GoErr), a.Name ≠ "" → AppExpr.Validate a e = none)
  ∧ (∀ (a : AppExpr) (e : Option GoErr), a.Name = "" → AppExpr.Validate a e = e)
  ∧ (∀ (a : AppExpr), AppExpr.Validate a none = none) := by
  refine ⟨fun a e h => ?_, fun a e h => ?_, fun a => appValidate_none a⟩
  · simp [AppExpr.Validate, h]
  · simp [AppExpr.Validate, h]

theorem c9_app_validate_name_witness :
    (wApp6.Name ≠ "") ∧ AppExpr.Validate wApp6 (some (GoErr.mk "x")) = none
  ∧ (wApp9.Name = "")
  ∧ AppExpr.Validate wApp9 (some (GoErr.mk "x")) = some (GoErr.mk "x")
  ∧ AppExpr.Validate wApp9 none = none :=
  ⟨by decide, c9_app_validate_name.1 wApp6 (some (GoErr.mk "x")) (by decide),
   rfl, c9_app_validate_name.2.1 wApp9 (some (GoErr.mk "x")) rfl,
   c9_app_validate_name.2.2 wApp9⟩

/-- C10: the runtime `Email`, `URL` and `Pattern` validators leave the
validator unchanged on an empty value, while `Required` records an error
exactly when the value consists solely of white space (which includes
the empty string). -/
theorem c10_empty_value_validators :
    ∀ (parseAddressOk : String → Bool)
      (parseURL : String → Option (String × String))
      (m : String → String → Option Bool) (v : Validator) (field pat : String),
      Validator.Email parseAddressOk v field "" = v
    ∧ Validator.URL parseURL v field "" = v
    ∧ Validator.Pattern m v field "" pat = v
    ∧ (∀ (value : String),
        (Validator.Required v field value).errors ≠ v.errors
          ↔ value.data.all goIsSpace) := by
  intro parse pu m v field pat
  refine ⟨rfl, rfl, rfl, fun value => ?_⟩
  simp only [Validator.Required]
  by_cases h : goTrimSpace value = ""
  · rw [if_pos h]
    refine iff_of_true ?_ ((goTrimSpace_eq_empty_iff value).mp h)
    intro heq
    have := congrArg List.length heq
    simp at this
  · rw [if_neg h]
    constructor
    · intro hne
      exact absurd rfl hne
    · intro hall
      exact absurd ((goTrimSpace_eq_empty_iff value).mpr hall) h

end Gluey
